import Mathlib

/-!
# posp-ota-server: the routes of `routes/index.js`

A shallow embedding of the three Express routes of the update server
(`GET /`, `GET /checkUpdate`, `POST /pushUpdate`) and of the library calls
they make, followed by theorems about them.

Conventions of the embedding:

* a JavaScript string is a Lean `String`; where a library function looks at
  UTF-16 code units the string is first turned into its code units;
* the Mongo collection behind the `Device` model is a list of documents in
  insertion order; what `Device.find` and `save` deliver to the route is an
  explicit argument of the handlers, so that store failures can be stated;
* a handler returns the response it sends, `none` when it sends nothing.
-/

set_option autoImplicit false

namespace PospOta

/-! ## JavaScript values -/

/-- An ECMAScript Number value, as far as this development evaluates it:
`int i` is the integer `i` (only built for integers a double represents
exactly), `nan` is NaN, and `coerced s` stands for the double that
StringToNumber gives for the string `s`, left unevaluated.  Two different
terms may therefore denote the same double; nothing below relies on two
Number terms being different. -/
inductive JSNumber where
  | int (i : Int)
  | nan
  | coerced (s : String)
  deriving DecidableEq, Repr

/-- The JavaScript values a document field or a response field can hold
here. -/
inductive JSValue where
  | undefined
  | null
  | str (s : String)
  | num (n : JSNumber)
  deriving DecidableEq, Repr

/-- A JSON object literal: its keys with their values, in the order written. -/
abbrev JSObject := List (String × JSValue)

/-- The value of a run of ASCII decimal digits, read left to right. -/
def decimalValue (cs : List Char) : Nat :=
  cs.foldl (fun acc c => 10 * acc + (c.toNat - 48)) 0

/-- StringToNumber on the fragment evaluated here: the empty string is 0, a
non-empty run of ASCII digits whose value is at most 2^53 is that integer
(every such integer is a double); any other string is left as `coerced`. -/
def stringToNumber (s : String) : JSNumber :=
  if s.toList = [] then JSNumber.int 0
  else if s.toList.all Char.isDigit && decide (decimalValue s.toList ≤ 2 ^ 53) then
    JSNumber.int (decimalValue s.toList)
  else JSNumber.coerced s

/-- The builtin `Number(value)`: undefined gives NaN, null gives 0, a number is
returned as it is, a string goes through StringToNumber. -/
def Number : JSValue → JSNumber
  | JSValue.undefined => JSNumber.nan
  | JSValue.null => JSNumber.int 0
  | JSValue.str s => stringToNumber s
  | JSValue.num n => n

/-- The test `typeof v === "number"`. -/
def JSValue.isNumber : JSValue → Bool
  | JSValue.num _ => true
  | _ => false

/-- The test `typeof v === "string"`. -/
def JSValue.isString : JSValue → Bool
  | JSValue.str _ => true
  | _ => false

/-! ## The `Device` model and the store -/

/-- Modelled from the spec: the schema of the `Device` model (`models/`, not
part of `routes/index.js`).  A document carries the eight fields of the
UpdateRecord of the data model; a field the document lacks is `undefined`. -/
structure Device where
  devicename : JSValue
  datetime : JSValue
  filename : JSValue
  id : JSValue
  romtype : JSValue
  size : JSValue
  url : JSValue
  version : JSValue
  deriving DecidableEq, Repr

/-- The call `document.get(path)`: the value stored at `path`, `undefined`
for a path the document does not have. -/
def Device.get (d : Device) (path : String) : JSValue :=
  if path = "devicename" then d.devicename
  else if path = "datetime" then d.datetime
  else if path = "filename" then d.filename
  else if path = "id" then d.id
  else if path = "romtype" then d.romtype
  else if path = "size" then d.size
  else if path = "url" then d.url
  else if path = "version" then d.version
  else JSValue.undefined

/-- The collection of `Device` documents, in insertion order. -/
abbrev Store := List Device

/-- The filter `{devicename: reqDevice, romtype: channelType}` applied to one
document: both fields equal the given strings. -/
def matchesQuery (reqDevice channelType : String) (d : Device) : Bool :=
  decide (d.devicename = JSValue.str reqDevice) && decide (d.romtype = JSValue.str channelType)

/-- The second argument `find` hands to its callback. -/
inductive Devices where
  | null
  | undefined
  | docs (ds : List Device)
  deriving DecidableEq, Repr

/-- One thing the call `await Device.find(filter, callback)` can deliver to
the route: `find` invokes the callback with `(err, devices)`, or the awaited
call throws (rejects) with `e`. -/
inductive FindEvent where
  | callback (err : Option String) (devices : Devices)
  | rejects (e : String)
  deriving DecidableEq, Repr

/-- The `find` of a working store, as the Record Store of the spec has it: an
exact-match filter on both fields, the matches in insertion order, reported
to the callback with no error; no match is the empty array.  The awaited call
then resolves, which the route does not react to. -/
def Store.find (store : Store) (reqDevice channelType : String) : List FindEvent :=
  [FindEvent.callback none (Devices.docs (store.filter (matchesQuery reqDevice channelType)))]

/-! ## Responses -/

/-- One entry of `errors.array()`: the field (`param`), the message and the
submitted value. -/
structure ValidationError where
  param : String
  msg : String
  value : Option String
  deriving DecidableEq, Repr

/-- The body of a POST: the eight form fields, each present or missing. -/
structure FormBody where
  devicename : Option String
  datetime : Option String
  filename : Option String
  id : Option String
  romtype : Option String
  size : Option String
  url : Option String
  version : Option String
  deriving DecidableEq, Repr

/-- What a route hands to `res.send` or `res.render`, or what the access guard
answers. -/
inductive Body where
  | error (code : String)
  | updates (returnJson : List JSObject)
  | message (response : String)
  | form (title : String) (errors : Option (List ValidationError)) (data : Option FormBody)
  | unauthorized
  deriving DecidableEq, Repr

/-- A response: the HTTP status and the body. -/
structure Response where
  status : Nat
  body : Body
  deriving DecidableEq, Repr

/-! ## validator.js: the string validators the submit route uses -/

/-- The UTF-16 code units of a list of characters: one unit for a character
of the basic plane, a surrogate pair above it. -/
def unitsOfChars : List Char → List Nat
  | [] => []
  | c :: cs =>
    if c.toNat < 65536 then c.toNat :: unitsOfChars cs
    else (55296 + (c.toNat - 65536) / 1024) :: (56320 + (c.toNat - 65536) % 1024) :: unitsOfChars cs

/-- The UTF-16 code units of a string, which is what `str.length`, `split` and
the regular expressions of validator.js see. -/
def codeUnits (s : String) : List Nat :=
  unitsOfChars s.toList

/-- The call `str.split(sep)` for a separator of one code unit. -/
def splitUnit (sep : Nat) : List Nat → List (List Nat)
  | [] => [[]]
  | c :: cs =>
    if c = sep then [] :: splitUnit sep cs
    else
      match splitUnit sep cs with
      | [] => [[c]]
      | p :: ps => (c :: p) :: ps

/-- The call `str.split("://")`: cut at every occurrence of the three units,
left to right. -/
def splitScheme : List Nat → List (List Nat)
  | [] => [[]]
  | c :: cs =>
    if c = 58 ∧ cs.take 2 = [47, 47] then
      match cs with
      | _ :: _ :: rest => [] :: splitScheme rest
      | _ => [[c]]
    else
      match splitScheme cs with
      | [] => [[c]]
      | p :: ps => (c :: p) :: ps

/-- The call `parts.join(sep)`. -/
def joinUnits (sep : List Nat) : List (List Nat) → List Nat
  | [] => []
  | [p] => p
  | p :: q :: ps => p ++ sep ++ joinUnits sep (q :: ps)

/-- The class `[0-9]`. -/
def isDigitUnit (u : Nat) : Bool :=
  decide (48 ≤ u) && decide (u ≤ 57)

/-- The test `/^[0-9]+$/`. -/
def allDigits (us : List Nat) : Bool :=
  !us.isEmpty && us.all isDigitUnit

/-- The value `parseInt(str, 10)` of a string of decimal digits. -/
def parseDigits (us : List Nat) : Nat :=
  us.foldl (fun acc u => 10 * acc + (u - 48)) 0

/-- The class `\s` of a JavaScript regular expression. -/
def isSpaceUnit (u : Nat) : Bool :=
  decide (9 ≤ u ∧ u ≤ 13) || decide (u = 32) || decide (u = 160) || decide (u = 5760)
    || decide (8192 ≤ u ∧ u ≤ 8202) || decide (u = 8232) || decide (u = 8233)
    || decide (u = 8239) || decide (u = 8287) || decide (u = 12288) || decide (u = 65279)

/-- ASCII letters to lower case.  This is `toLowerCase` on A-Z; other units
are kept, which leaves the comparison with `http`, `https` and `ftp` as it is:
no character outside A-Z lower-cases to one of their letters. -/
def toLowerCase (us : List Nat) : List Nat :=
  us.map (fun u => if 65 ≤ u ∧ u ≤ 90 then u + 32 else u)

/-- The call `isLength(str, options)` with `min` given and `max` absent: the
length counted is code units minus surrogate pairs, the number of characters. -/
def isLength (min : Nat) (str : String) : Bool :=
  decide (min ≤ str.length)

/-- The tail of the pattern of `isNumeric` after the optional sign:
`([0-9]*[.])?[0-9]+` up to the end of the string. -/
def unsignedNumeric (us : List Nat) : Bool :=
  allDigits us ||
    (match us.dropWhile isDigitUnit with
     | d :: rest => decide (d = 46) && allDigits rest
     | [] => false)

/-- The call `isNumeric(str)` without options: the pattern
`/^[+-]?([0-9]*[.])?[0-9]+$/`. -/
def isNumeric (str : String) : Bool :=
  match codeUnits str with
  | [] => false
  | u :: us => if u = 43 ∨ u = 45 then unsignedNumeric us else unsignedNumeric (u :: us)

/-- The pattern `/^(\d{1,3})\.(\d{1,3})\.(\d{1,3})\.(\d{1,3})$/` followed by
the test that the largest of the four parts is at most 255: `isIP(str, 4)`. -/
def isIP4 (str : List Nat) : Bool :=
  let parts := splitUnit 46 str
  decide (parts.length = 4)
    && parts.all (fun p => allDigits p && decide (p.length ≤ 3))
    && parts.all (fun p => decide (parseDigits p ≤ 255))

/-- The pattern `/^[0-9A-F]{1,4}$/i` of one block of an IPv6 address. -/
def ipv6Block (b : List Nat) : Bool :=
  decide (1 ≤ b.length ∧ b.length ≤ 4)
    && b.all (fun u => isDigitUnit u || decide (65 ≤ u ∧ u ≤ 70) || decide (97 ≤ u ∧ u ≤ 102))

/-- The `for` loop of `isIP(str, 6)` over the blocks: `i` is the index,
`len` the number of blocks, `found` the flag `foundOmissionBlock`.  The result
is `none` where the loop returns false, otherwise the flag after the loop. -/
def ipv6Loop (found4 : Bool) (len : Nat) : Nat → Bool → List (List Nat) → Option Bool
  | _, found, [] => some found
  | i, found, b :: bs =>
    if b = [] ∧ 0 < i ∧ i + 1 < len then
      if found then none else ipv6Loop found4 len (i + 1) true bs
    else if found4 = true ∧ i + 1 = len then ipv6Loop found4 len (i + 1) found bs
    else if !ipv6Block b then none
    else ipv6Loop found4 len (i + 1) found bs

/-- The call `isIP(str, 6)`. -/
def isIP6 (str : List Nat) : Bool :=
  let blocks := splitUnit 58 str
  let found4 := isIP4 (blocks.getLast?.getD [])
  let expected := if found4 then 7 else 8
  if blocks.length > expected then false
  else if str = [58, 58] then true
  else
    let front := decide (str.take 2 = [58, 58])
    let back := decide (2 ≤ str.length ∧ str.drop (str.length - 2) = [58, 58])
    let blocks := if front then blocks.drop 2 else if back then blocks.take (blocks.length - 2) else blocks
    match ipv6Loop found4 blocks.length 0 (front || back) blocks with
    | none => false
    | some true => decide (1 ≤ blocks.length)
    | some false => decide (blocks.length = expected)

/-- The call `isIP(str)` without a version: version 4 or version 6. -/
def isIP (str : List Nat) : Bool :=
  isIP4 str || isIP6 str

/-- The options of `isURL`, every key given. -/
structure UrlOptions where
  protocols : List String
  require_tld : Bool
  require_protocol : Bool
  require_host : Bool
  require_valid_protocol : Bool
  allow_underscores : Bool
  allow_trailing_dot : Bool
  allow_protocol_relative_urls : Bool
  deriving DecidableEq, Repr

/-- An options object as a caller writes it: every key present or absent. -/
structure UrlOptionsArg where
  protocols : Option (List String)
  require_tld : Option Bool
  require_protocol : Option Bool
  require_host : Option Bool
  require_valid_protocol : Option Bool
  allow_underscores : Option Bool
  allow_trailing_dot : Option Bool
  allow_protocol_relative_urls : Option Bool
  deriving DecidableEq, Repr

/-- The constant `default_url_options` of `isURL`. -/
def default_url_options : UrlOptions :=
  UrlOptions.mk ["http", "https", "ftp"] true false true true false false false

/-- The helper `merge(obj, defaults)`: a key the caller left out takes its
default. -/
def merge (obj : UrlOptionsArg) (defaults : UrlOptions) : UrlOptions :=
  UrlOptions.mk
    (obj.protocols.getD defaults.protocols)
    (obj.require_tld.getD defaults.require_tld)
    (obj.require_protocol.getD defaults.require_protocol)
    (obj.require_host.getD defaults.require_host)
    (obj.require_valid_protocol.getD defaults.require_valid_protocol)
    (obj.allow_underscores.getD defaults.allow_underscores)
    (obj.allow_trailing_dot.getD defaults.allow_trailing_dot)
    (obj.allow_protocol_relative_urls.getD defaults.allow_protocol_relative_urls)

/-- The class `[a-z\u00a1-\uffff]` under the flag `i`. -/
def isLetterUnit (u : Nat) : Bool :=
  decide (97 ≤ u ∧ u ≤ 122) || decide (65 ≤ u ∧ u ≤ 90) || decide (161 ≤ u ∧ u ≤ 65535)

/-- The pattern `/^([a-z\u00a1-\uffff]{2,}|xn[a-z0-9-]{2,})$/i` of a top-level
domain. -/
def tldPattern (tld : List Nat) : Bool :=
  (decide (2 ≤ tld.length) && tld.all isLetterUnit)
    || (decide (toLowerCase (tld.take 2) = [120, 110]) && decide (2 ≤ (tld.drop 2).length)
        && (tld.drop 2).all (fun u =>
              decide (97 ≤ u ∧ u ≤ 122) || decide (65 ≤ u ∧ u ≤ 90) || isDigitUnit u || decide (u = 45)))

/-- The class `[\s\u2002-\u200B\u202F\u205F\u3000\uFEFF\uDB40\uDC20]`, the
spaces `isFQDN` refuses in a top-level domain. -/
def isTldSpaceUnit (u : Nat) : Bool :=
  isSpaceUnit u || decide (8194 ≤ u ∧ u ≤ 8203) || decide (u = 56128) || decide (u = 56352)

/-- The checks `isFQDN` makes on one label: `/^[a-z\u00a1-\uffff0-9-]+$/i`, no
full-width character, no hyphen at either end. -/
def labelOk (allow_underscores : Bool) (part : List Nat) : Bool :=
  let part := if allow_underscores then part.filter (fun u => u ≠ 95) else part
  !part.isEmpty
    && part.all (fun u => isLetterUnit u || isDigitUnit u || decide (u = 45))
    && !part.any (fun u => decide (65281 ≤ u ∧ u ≤ 65374))
    && decide (part.head? ≠ some 45) && decide (part.getLast? ≠ some 45)

/-- The call `isFQDN(str, options)`. -/
def isFQDN (str : List Nat) (options : UrlOptions) : Bool :=
  let str := if options.allow_trailing_dot && decide (str.getLast? = some 46) then str.dropLast else str
  let parts := splitUnit 46 str
  if parts.any (fun p => decide (63 < p.length)) then false
  else if options.require_tld then
    let tld := parts.getLast?.getD []
    let parts := parts.dropLast
    if parts.isEmpty || !tldPattern tld then false
    else if tld.any isTldSpaceUnit then false
    else parts.all (labelOk options.allow_underscores)
  else parts.all (labelOk options.allow_underscores)

/-- The pattern `wrapped_ipv6`, `/^\[([^\]]+)\](?::([0-9]+))?$/`: the address
between the brackets and the port after them, when the host name matches. -/
def wrappedIpv6 (hostname : List Nat) : Option (List Nat × Option (List Nat)) :=
  match hostname with
  | [] => none
  | u :: rest =>
    if u ≠ 91 then none
    else
      let inner := rest.takeWhile (fun v => v ≠ 93)
      match rest.dropWhile (fun v => v ≠ 93) with
      | [] => none
      | _ :: after =>
        if inner = [] then none
        else
          match after with
          | [] => some (inner, none)
          | c :: port => if c = 58 ∧ allDigits port = true then some (inner, some port) else none

/-- The url without its fragment and its query: `url.split("#").shift()`,
then `url.split("?").shift()`. -/
def cutFragmentAndQuery (url : List Nat) : List Nat :=
  (splitUnit 63 ((splitUnit 35 url).headD [])).headD []

/-- The scheme `isURL` reads off a url: when `url.split("://")` has more than
one part, the first part in lower case. -/
def protocolOf (url : List Nat) : Option (List Nat) :=
  if (splitScheme url).length > 1 then some (toLowerCase ((splitScheme url).headD [])) else none

/-- The first part of `isURL` after the options are merged: fragment and query
are cut off, then the scheme is checked and removed.  The result is `none`
where `isURL` returns false, otherwise the url that is left. -/
def stripProtocol (options : UrlOptions) (url : List Nat) : Option (List Nat) :=
  let url := cutFragmentAndQuery url
  match protocolOf url with
  | some protocol =>
    if options.require_valid_protocol && !(options.protocols.map codeUnits).contains protocol then none
    else some (joinUnits [58, 47, 47] (splitScheme url).tail)
  | none =>
    if options.require_protocol then none
    else if url.take 2 = [47, 47] then
      if !options.allow_protocol_relative_urls then none else some (url.drop 2)
    else some (joinUnits [58, 47, 47] (splitScheme url))

/-- The port check of `isURL`: digits only, and between 1 and 65535. -/
def portOk (port_str : List Nat) : Bool :=
  allDigits port_str && decide (0 < parseDigits port_str) && decide (parseDigits port_str ≤ 65535)

/-- The second part of `isURL`, on the url without its scheme: path, user
information, host and port. -/
def hostPartOk (options : UrlOptions) (url : List Nat) : Bool :=
  if url = [] then false
  else
    let url := (splitUnit 47 url).headD []
    if url = [] ∧ options.require_host = false then true
    else
      let split := splitUnit 64 url
      if split.length > 1 ∧ 2 ≤ ((split.headD []).filter (fun u => u = 58)).length then false
      else
        let hostname := if split.length > 1 then joinUnits [64] split.tail else joinUnits [64] split
        match wrappedIpv6 hostname with
        | some (ipv6, port_str) =>
          if port_str.isSome ∧ portOk (port_str.getD []) = false then false
          else if !isIP [] && !isFQDN [] options && !isIP6 ipv6 then false
          else true
        | none =>
          let split := splitUnit 58 hostname
          let host := split.headD []
          if split.tail ≠ [] ∧ portOk (joinUnits [58] split.tail) = false then false
          else if !isIP host && !isFQDN host options then false
          else true

/-- The call `isURL(url, options)` of validator.js (the 10.x line, which
express-validator 5 depends on; `host_whitelist` and `host_blacklist` are
absent from every options object here, so those two checks are skipped). -/
def isURL (url : String) (options : UrlOptionsArg) : Bool :=
  let u := codeUnits url
  if u = [] ∨ 2083 ≤ u.length ∨ u.any (fun c => isSpaceUnit c || decide (c = 60) || decide (c = 62)) = true then false
  else if u.take 7 = codeUnits "mailto:" then false
  else
    let options := merge options default_url_options
    match stripProtocol options u with
    | none => false
    | some rest => hostPartOk options rest

/-! ## express-validator: running the chains of the submit route -/

/-- One validator of a chain, with the message `withMessage` gave it (the
message goes to the validator added last before the call). -/
structure ValidatorCfg where
  validator : String → Bool
  message : Option String

/-- The helper `toString(value)` of express-validator: a missing value is
validated as the empty string. -/
def toString (value : Option String) : String :=
  value.getD ""

/-- The runner of one chain `body(param)`: every validator of the chain runs on
the value, and each one that fails adds an error for the field, with its
message or the fallback `Invalid value`. -/
def runChain (param : String) (value : Option String) (validators : List ValidatorCfg) :
    List ValidationError :=
  validators.filterMap (fun cfg =>
    if cfg.validator (toString value) then none
    else some (ValidationError.mk param (cfg.message.getD "Invalid value") value))

/-- The options object the route gives `isURL`: the one key
`require_valid_protocol`, set to true. -/
def pushUpdateUrlOptions : UrlOptionsArg :=
  UrlOptionsArg.mk none none none none (some true) none none none

/-- The call `validationResult(req)` after the eight chains of `POST
/pushUpdate` have run, in the order the route lists them. -/
def validationResult (body : FormBody) : List ValidationError :=
  runChain "devicename" body.devicename
      [ValidatorCfg.mk (isLength 1) (some "Please enter the device name.")]
    ++ runChain "datetime" body.datetime
      [ValidatorCfg.mk (isLength 1) none, ValidatorCfg.mk isNumeric (some "Please enter the datetime.")]
    ++ runChain "filename" body.filename
      [ValidatorCfg.mk (isLength 1) (some "Please enter the file name")]
    ++ runChain "id" body.id
      [ValidatorCfg.mk (isLength 1) (some "Please enter the id.")]
    ++ runChain "romtype" body.romtype
      [ValidatorCfg.mk (isLength 1) (some "Please enter the release type")]
    ++ runChain "size" body.size
      [ValidatorCfg.mk (isLength 1) none, ValidatorCfg.mk isNumeric (some "Please enter the file size.")]
    ++ runChain "url" body.url
      [ValidatorCfg.mk (fun str => isURL str pushUpdateUrlOptions) (some "Please enter a valid URL")]
    ++ runChain "version" body.version
      [ValidatorCfg.mk (isLength 1) (some "Please enter the version.")]

/-! ## http-auth: the access guard -/

/-- The user name and password of an `Authorization: Basic` header. -/
structure Credentials where
  username : String
  password : String
  deriving DecidableEq, Repr

/-- One line of `users.htpasswd`: a user name and the hash of the password. -/
structure HtpasswdUser where
  username : String
  hash : String
  deriving DecidableEq, Repr

/-- The guard `basic`: the users read from `users.htpasswd`, and the check
`validate hash password` of a password against a stored hash. -/
structure Basic where
  users : List HtpasswdUser
  validate : String → String → Bool

/-- The check of `auth.connect(basic)`: the request carries credentials and
some line of the file has that user name and a hash the password verifies
against.  Only then is the next middleware called; otherwise the guard
answers 401 itself. -/
def Basic.isAuthenticated (basic : Basic) (credentials : Option Credentials) : Bool :=
  match credentials with
  | none => false
  | some c => basic.users.any (fun u => decide (u.username = c.username) && basic.validate u.hash c.password)

/-- The answer of the guard to a request it rejects. -/
def unauthorized : Response :=
  Response.mk 401 Body.unauthorized

/-! ## GET / -/

/-- The route `GET /`: behind the guard, the form is rendered. -/
def index (basic : Basic) (credentials : Option Credentials) : Response :=
  if basic.isAuthenticated credentials then Response.mk 200 (Body.form "POSP Updates" none none)
  else unauthorized

/-! ## GET /checkUpdate -/

/-- The object literal pushed on `returnJson` for one document. -/
def shapeDevice (currentDevice : Device) : JSObject :=
  [("datetime", JSValue.num (Number (currentDevice.get "datetime"))),
   ("filename", currentDevice.get "filename"),
   ("id", currentDevice.get "id"),
   ("romtype", currentDevice.get "romtype"),
   ("size", JSValue.num (Number (currentDevice.get "size"))),
   ("url", currentDevice.get "url"),
   ("version", currentDevice.get "version")]

/-- The `for` loop of the callback: one `push` per document, from index 0
upwards, starting from the `returnJson` built so far. -/
def pushDevices (returnJson : List JSObject) (devices : List Device) : List JSObject :=
  devices.foldl (fun acc currentDevice => acc ++ [shapeDevice currentDevice]) returnJson

/-- The callback given to `find`.  `err` is never read.  With `devices`
undefined the read of `devices.length` throws inside the `async` callback,
which only rejects the promise of the callback itself, a rejection nobody
handles: nothing is sent. -/
def checkUpdateCallback (_err : Option String) (devices : Devices) : Option Response :=
  match devices with
  | Devices.null => some ⟨404, Body.error "DeviceNotFound"⟩
  | Devices.undefined => none
  | Devices.docs ds => some ⟨200, Body.updates (pushDevices [] ds)⟩

/-- What the route sends on one event: the callback runs on an invocation, the
`catch` block answers a rejection. -/
def checkUpdateReaction : FindEvent → Option Response
  | FindEvent.callback err devices => checkUpdateCallback err devices
  | FindEvent.rejects _ => some ⟨404, Body.error "DeviceNotFound"⟩

/-- The handler of `GET /checkUpdate`, given the events `find` delivers in the
order they happen: the response is the first one sent (a later `send` on the
same response throws and changes nothing); `none` when nothing is sent. -/
def checkUpdateHandler (events : List FindEvent) : Option Response :=
  events.findSome? checkUpdateReaction

/-- The route `GET /checkUpdate?device=..&type=..` on a working store. -/
def checkUpdate (store : Store) (reqDevice channelType : String) : Option Response :=
  checkUpdateHandler (store.find reqDevice channelType)

/-! ## POST /pushUpdate -/

/-- The value a body field has in the document built from the body. -/
def fieldValue : Option String → JSValue
  | none => JSValue.undefined
  | some s => JSValue.str s

/-- Modelled from the spec: the constructor `new Device(req.body)`, whose
schema is not part of `routes/index.js`.  The document takes the eight fields
of the UpdateRecord from the body, each as submitted. -/
def newDevice (body : FormBody) : Device :=
  Device.mk (fieldValue body.devicename) (fieldValue body.datetime) (fieldValue body.filename)
    (fieldValue body.id) (fieldValue body.romtype) (fieldValue body.size) (fieldValue body.url)
    (fieldValue body.version)

/-- How the promise of `updateDevice.save()` settles. -/
inductive SaveOutcome where
  | resolved
  | rejected (error : String)
  deriving DecidableEq, Repr

/-- The store after `save()`: the document is appended when the promise
resolves; when it rejects nothing was persisted (the route only logs the
error). -/
def Store.save (store : Store) (updateDevice : Device) : SaveOutcome → Store
  | SaveOutcome.resolved => store ++ [updateDevice]
  | SaveOutcome.rejected _ => store

/-- The handler of `POST /pushUpdate`, after the guard and the chains, up to
the moment the response is sent.  With no validation error the document is
built, its `save()` is started and the fixed answer is sent at once: the save
is not awaited, so it is still in flight (the second component) and nothing
has been inserted yet.  Otherwise the form is rendered again with the errors
and the submitted data, and no save is started. -/
def pushUpdateSend (body : FormBody) : Response × Option Device :=
  if (validationResult body).isEmpty then
    (Response.mk 200 (Body.message "Successfully saved"), some (newDevice body))
  else
    (Response.mk 200 (Body.form "POSP Updates" (some (validationResult body)) (some body)), none)

/-- The store once the save in flight, if any, has settled. -/
def settleSave (store : Store) (outcome : SaveOutcome) : Option Device → Store
  | none => store
  | some updateDevice => store.save updateDevice outcome

/-- The handler of `POST /pushUpdate` with its save followed to the end: the
response it sends, which does not wait for the save, and the store once the
save it started has settled as `outcome` says. -/
def pushUpdateHandler (body : FormBody) (outcome : SaveOutcome) (store : Store) : Response × Store :=
  ((pushUpdateSend body).1, settleSave store outcome (pushUpdateSend body).2)

/-- The route `POST /pushUpdate`: the guard first; the chains and the handler
run only for a request the guard lets through.  The store returned is the
store once the save, if one was started, has settled. -/
def pushUpdate (basic : Basic) (credentials : Option Credentials) (body : FormBody)
    (outcome : SaveOutcome) (store : Store) : Response × Store :=
  if basic.isAuthenticated credentials then pushUpdateHandler body outcome store
  else (unauthorized, store)

/-! ## The server as a transition system -/

/-- A request to one of the three routes, together with what the store does
while it is served: for a query the events of a faulty `find` (none: the
store works), for a submission how `save` settles. -/
inductive Request where
  | index (credentials : Option Credentials)
  | checkUpdate (device type : String) (fault : Option (List FindEvent))
  | pushUpdate (credentials : Option Credentials) (body : FormBody) (outcome : SaveOutcome)

/-- One request served: the response sent, if any, and the store once the
request and the save it may have started are over. -/
def serve (basic : Basic) (store : Store) : Request → Option Response × Store
  | Request.index credentials => (some (index basic credentials), store)
  | Request.checkUpdate device type fault =>
    (checkUpdateHandler (fault.getD (store.find device type)), store)
  | Request.pushUpdate credentials body outcome =>
    (some (pushUpdate basic credentials body outcome store).1,
     (pushUpdate basic credentials body outcome store).2)

/-! ## Sample data -/

/-- The payload of the scenario of the spec: the beryllium weekly build. -/
def berylliumBody : FormBody :=
  FormBody.mk (some "beryllium") (some "1551462180") (some "x.zip") (some "abc1") (some "weekly")
    (some "100") (some "https://example.com/x.zip") (some "1.0")

/-- The document the scenario payload is stored as. -/
def berylliumDevice : Device :=
  newDevice berylliumBody

/-- A document of another device: the scenario payload for polaris. -/
def polarisDevice : Device :=
  newDevice (FormBody.mk (some "polaris") (some "1551462180") (some "x.zip") (some "abc1")
    (some "weekly") (some "100") (some "https://example.com/x.zip") (some "1.0"))

/-- A guard with one user, whose hash is verified by comparing it with the
password as sent. -/
def sampleBasic : Basic :=
  Basic.mk [HtpasswdUser.mk "admin" "secret"] (fun hash password => decide (hash = password))

/-- The credentials of the one user of the sample guard. -/
def adminCredentials : Credentials :=
  Credentials.mk "admin" "secret"

/-! ## The rules of the Validator, in the words of the spec -/

/-- The eight fields of a submission. -/
inductive Field where
  | devicename
  | datetime
  | filename
  | id
  | romtype
  | size
  | url
  | version
  deriving DecidableEq, Repr

/-- The name under which a field is submitted and under which an error names
it. -/
def Field.param : Field → String
  | Field.devicename => "devicename"
  | Field.datetime => "datetime"
  | Field.filename => "filename"
  | Field.id => "id"
  | Field.romtype => "romtype"
  | Field.size => "size"
  | Field.url => "url"
  | Field.version => "version"

/-- The submitted value of a field. -/
def FormBody.field (body : FormBody) : Field → Option String
  | Field.devicename => body.devicename
  | Field.datetime => body.datetime
  | Field.filename => body.filename
  | Field.id => body.id
  | Field.romtype => body.romtype
  | Field.size => body.size
  | Field.url => body.url
  | Field.version => body.version

/-- A field that is missing or empty. -/
def missingOrEmpty (value : Option String) : Prop :=
  value = none ∨ value = some ""

/-- A decimal digit, 0 to 9. -/
def isDecimalDigit (c : Char) : Prop :=
  48 ≤ c.toNat ∧ c.toNat ≤ 57

/-- The part of a numeral after the sign: decimal digits, which may have one
decimal point among them provided a digit follows it; at least one digit
after the point, or with no point at least one digit. -/
def IsUnsignedNumeral (xs : List Char) : Prop :=
  ∃ whole frac : List Char,
    xs = whole ++ frac
    ∧ (∀ c ∈ whole, isDecimalDigit c)
    ∧ ((frac = [] ∧ whole ≠ [])
        ∨ ∃ ds : List Char, frac = '.' :: ds ∧ ds ≠ [] ∧ ∀ c ∈ ds, isDecimalDigit c)

/-- Numeric, written out character by character: an optional sign, plus or
minus, then an unsigned numeral. -/
def IsDecimalNumeral (s : String) : Prop :=
  ∃ sign whole frac : List Char,
    s.toList = sign ++ whole ++ frac
    ∧ (sign = [] ∨ sign = ['+'] ∨ sign = ['-'])
    ∧ (∀ c ∈ whole, isDecimalDigit c)
    ∧ ((frac = [] ∧ whole ≠ [])
        ∨ ∃ ds : List Char, frac = '.' :: ds ∧ ds ≠ [] ∧ ∀ c ∈ ds, isDecimalDigit c)

/-- The text `sep` occurs in `cs`. -/
def occursIn (sep : List Char) : List Char → Bool
  | [] => sep.isEmpty
  | c :: cs => decide ((c :: cs).take sep.length = sep) || occursIn sep cs

/-- A url carries an explicit protocol scheme: the mark `://` occurs in it
after at least one character. -/
def hasExplicitScheme (url : String) : Bool :=
  match url.toList with
  | [] => false
  | _ :: cs => occursIn [':', '/', '/'] cs

/-- The url rule as the spec writes it: non-empty, a syntactically valid URL,
and with an explicit protocol scheme.  A url violates it when it is missing
or empty, when it has no explicit scheme, or when `isURL` finds it
malformed. -/
def violatesWrittenUrlRule (url : Option String) : Prop :=
  missingOrEmpty url ∨ hasExplicitScheme (toString url) = false
    ∨ isURL (toString url) pushUpdateUrlOptions = false

/-- The rule a field violates, as the route enforces it: devicename, filename,
id, romtype and version must be non-empty; datetime and size non-empty and
numeric, that is decimal numerals; url non-empty and a URL that `isURL` with
the options of the route accepts, for which a scheme is not required. -/
def violatesRule (body : FormBody) : Field → Prop
  | Field.devicename => missingOrEmpty body.devicename
  | Field.datetime => missingOrEmpty body.datetime ∨ ¬ IsDecimalNumeral (toString body.datetime)
  | Field.filename => missingOrEmpty body.filename
  | Field.id => missingOrEmpty body.id
  | Field.romtype => missingOrEmpty body.romtype
  | Field.size => missingOrEmpty body.size ∨ ¬ IsDecimalNumeral (toString body.size)
  | Field.url => missingOrEmpty body.url ∨ isURL (toString body.url) pushUpdateUrlOptions = false
  | Field.version => missingOrEmpty body.version

/-- The validation names the field `param`: some error of the list is on it. -/
def namesField (body : FormBody) (param : String) : Prop :=
  ∃ e ∈ validationResult body, e.param = param

/-- A payload whose url names a mirror without a scheme. -/
def mirrorBody : FormBody :=
  FormBody.mk (some "beryllium") (some "1551462180") (some "x.zip") (some "abc1") (some "weekly")
    (some "100") (some "mirror.potatoproject.co/beryllium/x.zip") (some "1.0")

/-- A payload with three bad fields: a datetime with a letter in it, a size
that ends in its decimal point, and a url whose host has no top-level
domain. -/
def badBody : FormBody :=
  FormBody.mk (some "beryllium") (some "12a") (some "x.zip") (some "abc1") (some "weekly")
    (some "1.") (some "https://example/x.zip") (some "1.0")

/-- The scenario payload with the scheme taken off its url. -/
def schemelessBody : FormBody :=
  FormBody.mk (some "beryllium") (some "1551462180") (some "x.zip") (some "abc1") (some "weekly")
    (some "100") (some "example.com/x.zip") (some "1.0")

/-! ## Lemmas on the query route -/

theorem pushDevices_eq_append_map (returnJson : List JSObject) (devices : List Device) :
    pushDevices returnJson devices = returnJson ++ devices.map shapeDevice := by
  induction devices generalizing returnJson with
  | nil => simp [pushDevices]
  | cons d ds ih =>
    have h := ih (returnJson ++ [shapeDevice d])
    simp only [pushDevices, List.foldl_cons] at h ⊢
    rw [h]
    simp

theorem checkUpdateHandler_docs (err : Option String) (ds : List Device) (later : List FindEvent) :
    checkUpdateHandler (FindEvent.callback err (Devices.docs ds) :: later)
      = some (Response.mk 200 (Body.updates (ds.map shapeDevice))) := by
  simp [checkUpdateHandler, checkUpdateReaction, checkUpdateCallback, pushDevices_eq_append_map]

theorem checkUpdate_eq (store : Store) (reqDevice channelType : String) :
    checkUpdate store reqDevice channelType
      = some (Response.mk 200
          (Body.updates ((store.filter (matchesQuery reqDevice channelType)).map shapeDevice))) := by
  simp [checkUpdate, Store.find, checkUpdateHandler_docs]

/-! ## Lemmas on the validation -/

theorem char_eq_of_toNat_eq (c d : Char) (h : c.toNat = d.toNat) : c = d := by
  rw [← Char.ofNat_toNat c, ← Char.ofNat_toNat d, h]

theorem unitsOfChars_append (a b : List Char) :
    unitsOfChars (a ++ b) = unitsOfChars a ++ unitsOfChars b := by
  induction a with
  | nil => rfl
  | cons c cs ih =>
    simp only [List.cons_append, unitsOfChars]
    split <;> simp [ih]

theorem unitsOfChars_cons_small (c : Char) (cs : List Char) (h : c.toNat < 65536) :
    unitsOfChars (c :: cs) = c.toNat :: unitsOfChars cs := by
  simp [unitsOfChars, h]

/-- The first unit of a character is below 128 only for the character with
that code. -/
theorem head_unit_small (c : Char) (cs : List Char) (u : Nat) (rest : List Nat) (hu : u < 128)
    (h : unitsOfChars (c :: cs) = u :: rest) : c.toNat = u ∧ unitsOfChars cs = rest := by
  simp only [unitsOfChars] at h
  split at h
  · simp at h
    exact h
  · simp at h
    omega

theorem head_unit_digit (c : Char) (cs : List Char) :
    (∃ u rest, unitsOfChars (c :: cs) = u :: rest ∧ (isDigitUnit u = true ↔ isDecimalDigit c)) := by
  simp only [unitsOfChars]
  split
  · exact ⟨_, _, rfl, by simp [isDigitUnit, isDecimalDigit]⟩
  · refine ⟨_, _, rfl, ?_⟩
    simp only [isDigitUnit, isDecimalDigit, Bool.and_eq_true, decide_eq_true_eq]
    omega

theorem all_digit_units (cs : List Char) :
    (unitsOfChars cs).all isDigitUnit = true ↔ ∀ c ∈ cs, isDecimalDigit c := by
  induction cs with
  | nil => simp [unitsOfChars]
  | cons c cs ih =>
    simp only [unitsOfChars]
    split
    · simp only [List.all_cons, Bool.and_eq_true, ih, List.mem_cons, forall_eq_or_imp]
      simp [isDigitUnit, isDecimalDigit]
    · rename_i hbig
      simp only [List.all_cons, Bool.and_eq_true, List.mem_cons, forall_eq_or_imp]
      constructor
      · intro h
        have := h.1
        simp [isDigitUnit] at this
        omega
      · intro h
        have := h.1
        simp [isDecimalDigit] at this
        omega

theorem allDigits_units (cs : List Char) :
    allDigits (unitsOfChars cs) = true ↔ cs ≠ [] ∧ ∀ c ∈ cs, isDecimalDigit c := by
  unfold allDigits
  rw [Bool.and_eq_true, all_digit_units]
  constructor
  · rintro ⟨h1, h2⟩
    refine ⟨?_, h2⟩
    rintro rfl
    simp [unitsOfChars] at h1
  · rintro ⟨h1, h2⟩
    refine ⟨?_, h2⟩
    cases cs with
    | nil => exact absurd rfl h1
    | cons c cs =>
      simp only [unitsOfChars]
      split <;> simp

theorem dropWhile_units_point (xs : List Char) (rest : List Nat)
    (h : (unitsOfChars xs).dropWhile isDigitUnit = 46 :: rest) :
    ∃ whole ds : List Char, xs = whole ++ '.' :: ds ∧ (∀ c ∈ whole, isDecimalDigit c)
      ∧ unitsOfChars ds = rest := by
  induction xs with
  | nil => simp [unitsOfChars] at h
  | cons c cs ih =>
    simp only [unitsOfChars] at h
    split at h
    · rename_i hsmall
      rw [List.dropWhile_cons] at h
      split at h
      · rename_i hdigit
        obtain ⟨whole, ds, h1, h2, h3⟩ := ih h
        refine ⟨c :: whole, ds, by rw [h1]; rfl, ?_, h3⟩
        intro x hx
        rcases List.mem_cons.mp hx with rfl | hx
        · simpa [isDigitUnit, isDecimalDigit] using hdigit
        · exact h2 x hx
      · simp only [List.cons.injEq] at h
        refine ⟨[], cs, ?_, by simp, h.2⟩
        rw [char_eq_of_toNat_eq c '.' (by rw [h.1]; rfl)]
        rfl
    · rw [List.dropWhile_cons] at h
      split at h
      · rename_i hdigit
        simp [isDigitUnit] at hdigit
        omega
      · simp only [List.cons.injEq] at h
        omega

theorem dropWhile_units_whole (whole : List Char) (tail : List Nat)
    (hw : ∀ c ∈ whole, isDecimalDigit c) :
    (unitsOfChars whole ++ tail).dropWhile isDigitUnit = tail.dropWhile isDigitUnit := by
  induction whole with
  | nil => rfl
  | cons c cs ih =>
    have hc := hw c (List.mem_cons_self _ _)
    have hsmall : c.toNat < 65536 := by
      have := hc.2
      omega
    rw [unitsOfChars_cons_small c cs hsmall, List.cons_append, List.dropWhile_cons]
    have hd : isDigitUnit c.toNat = true := by simpa [isDigitUnit, isDecimalDigit] using hc
    rw [if_pos hd]
    exact ih (fun x hx => hw x (List.mem_cons_of_mem _ hx))

theorem unsignedNumeric_units (xs : List Char) :
    unsignedNumeric (unitsOfChars xs) = true ↔ IsUnsignedNumeral xs := by
  unfold unsignedNumeric IsUnsignedNumeral
  rw [Bool.or_eq_true]
  constructor
  · rintro (h | h)
    · rw [allDigits_units] at h
      exact ⟨xs, [], by simp, h.2, Or.inl ⟨rfl, h.1⟩⟩
    · split at h
      · rename_i d rest heq
        simp only [Bool.and_eq_true, decide_eq_true_eq] at h
        obtain ⟨rfl, hrest⟩ := h
        obtain ⟨whole, ds, h1, h2, h3⟩ := dropWhile_units_point xs rest heq
        rw [← h3, allDigits_units] at hrest
        exact ⟨whole, '.' :: ds, h1, h2, Or.inr ⟨ds, rfl, hrest.1, hrest.2⟩⟩
      · exact absurd h (by simp)
  · rintro ⟨whole, frac, rfl, hw, h | ⟨ds, rfl, hne, hds⟩⟩
    · left
      rw [h.1, List.append_nil, allDigits_units]
      exact ⟨h.2, hw⟩
    · right
      rw [unitsOfChars_append, dropWhile_units_whole whole _ hw]
      rw [unitsOfChars_cons_small '.' ds (by decide)]
      have h46 : ('.' : Char).toNat = 46 := by decide
      rw [h46, List.dropWhile_cons]
      have hnd : isDigitUnit 46 = false := by decide
      simp only [hnd]
      simp only [Bool.false_eq_true, if_false, decide_True, Bool.true_and]
      rw [allDigits_units]
      exact ⟨hne, hds⟩

theorem isNumeric_iff (s : String) : isNumeric s = true ↔ IsDecimalNumeral s := by
  have key : IsDecimalNumeral s ↔
      (∃ xs, (s.toList = '+' :: xs ∨ s.toList = '-' :: xs) ∧ IsUnsignedNumeral xs)
        ∨ IsUnsignedNumeral s.toList := by
    unfold IsDecimalNumeral IsUnsignedNumeral
    constructor
    · rintro ⟨sign, whole, frac, h1, hs | hs | hs, h3, h4⟩
      · right
        exact ⟨whole, frac, by rw [h1, hs]; rfl, h3, h4⟩
      · left
        exact ⟨whole ++ frac, Or.inl (by rw [h1, hs]; simp), whole, frac, rfl, h3, h4⟩
      · left
        exact ⟨whole ++ frac, Or.inr (by rw [h1, hs]; simp), whole, frac, rfl, h3, h4⟩
    · rintro (⟨xs, h | h, whole, frac, rfl, h3, h4⟩ | ⟨whole, frac, h1, h3, h4⟩)
      · exact ⟨['+'], whole, frac, by rw [h]; simp, Or.inr (Or.inl rfl), h3, h4⟩
      · exact ⟨['-'], whole, frac, by rw [h]; simp, Or.inr (Or.inr rfl), h3, h4⟩
      · exact ⟨[], whole, frac, by rw [h1]; rfl, Or.inl rfl, h3, h4⟩
  have first : ∀ (c : Char) (xs : List Char), IsUnsignedNumeral (c :: xs) →
      isDecimalDigit c ∨ c = '.' := by
    rintro c xs ⟨whole, frac, h1, h3, h4⟩
    cases whole with
    | nil =>
      rcases h4 with ⟨_, h⟩ | ⟨ds, rfl, _, _⟩
      · exact absurd rfl h
      · simp only [List.nil_append, List.cons.injEq] at h1
        exact Or.inr h1.1
    | cons w ws =>
      simp only [List.cons_append, List.cons.injEq] at h1
      rw [h1.1]
      exact Or.inl (h3 w (List.mem_cons_self _ _))
  rw [key]
  unfold isNumeric codeUnits
  cases hcs : s.toList with
  | nil =>
    simp only [unitsOfChars]
    constructor
    · intro h
      exact absurd h (by simp)
    · rintro (⟨xs, h | h, _⟩ | ⟨whole, frac, h1, _, h4⟩)
      · exact absurd h (by simp)
      · exact absurd h (by simp)
      · exfalso
        rcases h4 with ⟨rfl, h⟩ | ⟨ds, rfl, _, _⟩
        · simp at h1
          exact h h1
        · simp at h1
  | cons c cs =>
    by_cases hplus : c = '+'
    · subst hplus
      rw [unitsOfChars_cons_small '+' cs (by decide)]
      have h43 : ('+' : Char).toNat = 43 := by decide
      simp only [h43, true_or, if_true]
      rw [unsignedNumeric_units]
      constructor
      · intro h
        exact Or.inl ⟨cs, Or.inl rfl, h⟩
      · rintro (⟨xs, h | h, hx⟩ | h)
        · simp only [List.cons.injEq, true_and] at h
          rw [h]
          exact hx
        · simp only [List.cons.injEq] at h
          exact absurd h.1 (by decide)
        · rcases first _ _ h with hd | hd
          · exact absurd hd (by simp [isDecimalDigit, h43])
          · exact absurd hd (by decide)
    · by_cases hminus : c = '-'
      · subst hminus
        rw [unitsOfChars_cons_small '-' cs (by decide)]
        have h45 : ('-' : Char).toNat = 45 := by decide
        simp only [h45, or_true, if_true]
        rw [unsignedNumeric_units]
        constructor
        · intro h
          exact Or.inl ⟨cs, Or.inr rfl, h⟩
        · rintro (⟨xs, h | h, hx⟩ | h)
          · simp only [List.cons.injEq] at h
            exact absurd h.1 (by decide)
          · simp only [List.cons.injEq, true_and] at h
            rw [h]
            exact hx
          · rcases first _ _ h with hd | hd
            · exact absurd hd (by simp [isDecimalDigit, h45])
            · exact absurd hd (by decide)
      · have hhead : ∃ u rest, unitsOfChars (c :: cs) = u :: rest ∧ u ≠ 43 ∧ u ≠ 45 := by
          simp only [unitsOfChars]
          split
          · refine ⟨_, _, rfl, ?_, ?_⟩
            · intro h
              exact hplus (char_eq_of_toNat_eq c '+' (by rw [h]; rfl))
            · intro h
              exact hminus (char_eq_of_toNat_eq c '-' (by rw [h]; rfl))
          · refine ⟨_, _, rfl, ?_, ?_⟩ <;> omega
        obtain ⟨u, rest, hu, h1, h2⟩ := hhead
        rw [hu]
        simp only [h1, h2, or_self, if_false]
        rw [← hu, unsignedNumeric_units]
        constructor
        · intro h
          exact Or.inr h
        · rintro (⟨xs, h | h, _⟩ | h)
          · simp only [List.cons.injEq] at h
            exact absurd h.1 hplus
          · simp only [List.cons.injEq] at h
            exact absurd h.1 hminus
          · exact h

theorem isLength_one_eq_false (value : Option String) :
    isLength 1 (toString value) = false ↔ missingOrEmpty value := by
  unfold isLength toString missingOrEmpty
  cases value with
  | none => simp
  | some s =>
    rcases s with ⟨data⟩
    cases data with
    | nil => simp
    | cons c cs =>
      simp [String.length]
      intro h
      have h2 := congrArg String.length h
      simp [String.length] at h2

theorem missingOrEmpty_isURL (value : Option String) (h : missingOrEmpty value) :
    isURL (toString value) pushUpdateUrlOptions = false := by
  rcases h with rfl | rfl <;> rfl

theorem exists_mem_runChain (param q : String) (value : Option String) (vs : List ValidatorCfg) :
    (∃ e ∈ runChain param value vs, e.param = q)
      ↔ (param = q ∧ ∃ cfg ∈ vs, cfg.validator (toString value) = false) := by
  simp only [runChain, List.mem_filterMap]
  constructor
  · rintro ⟨e, ⟨cfg, hcfg, h⟩, rfl⟩
    by_cases hv : cfg.validator (toString value) = true
    · simp [hv] at h
    · simp only [hv] at h
      simp at h
      subst h
      exact ⟨rfl, cfg, hcfg, by simpa using hv⟩
  · rintro ⟨rfl, cfg, hcfg, hfalse⟩
    exact ⟨_, ⟨cfg, hcfg, by simp [hfalse]; rfl⟩, rfl⟩

theorem namesField_iff (body : FormBody) (q : String) :
    namesField body q ↔
      ("devicename" = q ∧ missingOrEmpty body.devicename)
      ∨ ("datetime" = q ∧ (missingOrEmpty body.datetime ∨ isNumeric (toString body.datetime) = false))
      ∨ ("filename" = q ∧ missingOrEmpty body.filename)
      ∨ ("id" = q ∧ missingOrEmpty body.id)
      ∨ ("romtype" = q ∧ missingOrEmpty body.romtype)
      ∨ ("size" = q ∧ (missingOrEmpty body.size ∨ isNumeric (toString body.size) = false))
      ∨ ("url" = q ∧ isURL (toString body.url) pushUpdateUrlOptions = false)
      ∨ ("version" = q ∧ missingOrEmpty body.version) := by
  unfold namesField validationResult
  simp only [List.mem_append, or_and_right, exists_or, exists_mem_runChain]
  simp only [List.mem_cons, List.mem_singleton, List.not_mem_nil, or_false, exists_eq_left,
    exists_eq_or_imp, isLength_one_eq_false, or_assoc]

theorem isNumeric_eq_false_iff (s : String) : isNumeric s = false ↔ ¬ IsDecimalNumeral s := by
  rw [← isNumeric_iff]
  simp

theorem violatesRule_iff_namesField (body : FormBody) (f : Field) :
    violatesRule body f ↔ namesField body f.param := by
  rw [namesField_iff]
  cases f <;> simp [Field.param, violatesRule, isNumeric_eq_false_iff]
  exact missingOrEmpty_isURL body.url

theorem param_of_mem_validationResult (body : FormBody) (e : ValidationError)
    (he : e ∈ validationResult body) : ∃ f : Field, e.param = f.param := by
  have h : namesField body e.param := ⟨e, he, rfl⟩
  rw [namesField_iff] at h
  rcases h with h | h | h | h | h | h | h | h
  · exact ⟨Field.devicename, h.1.symm⟩
  · exact ⟨Field.datetime, h.1.symm⟩
  · exact ⟨Field.filename, h.1.symm⟩
  · exact ⟨Field.id, h.1.symm⟩
  · exact ⟨Field.romtype, h.1.symm⟩
  · exact ⟨Field.size, h.1.symm⟩
  · exact ⟨Field.url, h.1.symm⟩
  · exact ⟨Field.version, h.1.symm⟩

theorem validationResult_eq_nil_iff (body : FormBody) :
    validationResult body = [] ↔ ∀ f : Field, ¬ violatesRule body f := by
  constructor
  · intro h f hf
    rw [violatesRule_iff_namesField] at hf
    obtain ⟨e, he, _⟩ := hf
    rw [h] at he
    exact List.not_mem_nil e he
  · intro h
    rw [List.eq_nil_iff_forall_not_mem]
    intro e he
    obtain ⟨f, hf⟩ := param_of_mem_validationResult body e he
    exact h f ((violatesRule_iff_namesField body f).mpr ⟨e, he, hf⟩)

theorem fields_of_valid (body : FormBody) (hvalid : validationResult body = []) :
    ∃ devicename datetime filename id romtype size url version : String,
      body = FormBody.mk (some devicename) (some datetime) (some filename) (some id) (some romtype)
        (some size) (some url) (some version) := by
  have h := (validationResult_eq_nil_iff body).mp hvalid
  have present : ∀ f : Field, ∃ s, body.field f = some s := by
    intro f
    cases hf : body.field f with
    | some s => exact ⟨s, rfl⟩
    | none =>
      exfalso
      apply h f
      cases f <;> simp only [FormBody.field] at hf <;>
        simp [violatesRule, missingOrEmpty, hf]
  obtain ⟨a, ha⟩ := present Field.devicename
  obtain ⟨b, hb⟩ := present Field.datetime
  obtain ⟨c, hc⟩ := present Field.filename
  obtain ⟨d, hd⟩ := present Field.id
  obtain ⟨e, he⟩ := present Field.romtype
  obtain ⟨f, hf⟩ := present Field.size
  obtain ⟨g, hg⟩ := present Field.url
  obtain ⟨k, hk⟩ := present Field.version
  simp only [FormBody.field] at ha hb hc hd he hf hg hk
  refine ⟨a, b, c, d, e, f, g, k, ?_⟩
  cases body
  simp_all

/-! ## The query route -/

/-- C1, what the code does where the claim expects 404: when no stored
document matches the queried device and type, the working store reports the
empty array, the test for null fails, the loop runs zero times and the route
answers 200 with an empty response array. -/
theorem checkUpdate_no_match_sends_200 (store : Store) (reqDevice channelType : String)
    (hnone : ∀ d ∈ store,
      ¬ (d.devicename = JSValue.str reqDevice ∧ d.romtype = JSValue.str channelType)) :
    checkUpdate store reqDevice channelType = some (Response.mk 200 (Body.updates [])) := by
  rw [checkUpdate_eq]
  have hfilter : store.filter (matchesQuery reqDevice channelType) = [] := by
    rw [List.filter_eq_nil_iff]
    intro d hd hm
    apply hnone d hd
    simpa [matchesQuery] using hm
  rw [hfilter]
  rfl

/-- C1 at concrete inputs: the empty store, and a store holding the beryllium
weekly build queried for another channel, both answer 200 with an empty
array and not 404 DeviceNotFound. -/
theorem checkUpdate_no_match_sends_200_witness :
    checkUpdate [] "beryllium" "weekly" = some (Response.mk 200 (Body.updates []))
    ∧ checkUpdate [berylliumDevice] "beryllium" "stable" = some (Response.mk 200 (Body.updates []))
    ∧ checkUpdate [] "beryllium" "weekly" ≠ some (Response.mk 404 (Body.error "DeviceNotFound")) :=
  ⟨checkUpdate_no_match_sends_200 [] "beryllium" "weekly" (by simp),
   checkUpdate_no_match_sends_200 [berylliumDevice] "beryllium" "stable" (by decide),
   by decide⟩

/-- C2: when at least one stored document matches the queried device and
type, the route answers 200 with a response array that has one entry per
matching document (duplicates counted, other documents left out), and in
every entry datetime and size are present and are numbers, not strings. -/
theorem checkUpdate_matches_sends_all (store : Store) (reqDevice channelType : String)
    (hsome : ∃ d ∈ store,
      d.devicename = JSValue.str reqDevice ∧ d.romtype = JSValue.str channelType) :
    ∃ L : List JSObject,
      checkUpdate store reqDevice channelType = some (Response.mk 200 (Body.updates L))
      ∧ L.length = store.countP (fun d =>
          decide (d.devicename = JSValue.str reqDevice ∧ d.romtype = JSValue.str channelType))
      ∧ 0 < L.length
      ∧ ∀ entry ∈ L, ∃ datetime size,
          entry.lookup "datetime" = some datetime ∧ entry.lookup "size" = some size
          ∧ datetime.isNumber = true ∧ size.isNumber = true
          ∧ datetime.isString = false ∧ size.isString = false := by
  refine ⟨(store.filter (matchesQuery reqDevice channelType)).map shapeDevice,
    checkUpdate_eq store reqDevice channelType, ?_, ?_, ?_⟩
  · rw [List.length_map, List.countP_eq_length_filter]
    congr 2
    funext d
    simp [matchesQuery]
  · rw [List.length_map]
    obtain ⟨d, hd, h1, h2⟩ := hsome
    apply List.length_pos_of_mem (a := d)
    rw [List.mem_filter]
    exact ⟨hd, by simp [matchesQuery, h1, h2]⟩
  · intro entry hentry
    rw [List.mem_map] at hentry
    obtain ⟨d, _, rfl⟩ := hentry
    exact ⟨JSValue.num (Number (d.get "datetime")), JSValue.num (Number (d.get "size")),
      rfl, rfl, rfl, rfl, rfl, rfl⟩

/-- C2 at a concrete store: two identical beryllium weekly documents and a
polaris document between them give a response array of length two. -/
theorem checkUpdate_matches_sends_all_witness :
    (∃ d ∈ [berylliumDevice, polarisDevice, berylliumDevice],
      d.devicename = JSValue.str "beryllium" ∧ d.romtype = JSValue.str "weekly")
    ∧ ∃ L : List JSObject,
      checkUpdate [berylliumDevice, polarisDevice, berylliumDevice] "beryllium" "weekly"
        = some (Response.mk 200 (Body.updates L))
      ∧ L.length = 2 := by
  have hsome : ∃ d ∈ [berylliumDevice, polarisDevice, berylliumDevice],
      d.devicename = JSValue.str "beryllium" ∧ d.romtype = JSValue.str "weekly" :=
    ⟨berylliumDevice, by simp, by decide⟩
  obtain ⟨L, h1, h2, _⟩ := checkUpdate_matches_sends_all _ "beryllium" "weekly" hsome
  refine ⟨hsome, L, h1, ?_⟩
  rw [h2]
  decide

/-- C3: for every array of documents `find` hands to the callback, the
response array is the element-wise image of that array, in the same order.
The entry at index i has exactly the seven keys datetime, filename, id,
romtype, size, url, version (no devicename); filename, id, romtype, url and
version are the fields of the i-th document unchanged, datetime and size are
`Number` of its datetime and size. -/
theorem checkUpdate_response_is_image (err : Option String) (ds : List Device) (i : Nat)
    (hi : i < ds.length) :
    ∃ L : List JSObject,
      checkUpdateHandler [FindEvent.callback err (Devices.docs ds)]
        = some (Response.mk 200 (Body.updates L))
      ∧ L.length = ds.length
      ∧ ∃ entry : JSObject, L[i]? = some entry
        ∧ entry.map Prod.fst = ["datetime", "filename", "id", "romtype", "size", "url", "version"]
        ∧ entry.lookup "devicename" = none
        ∧ entry.lookup "datetime" = some (JSValue.num (Number ds[i].datetime))
        ∧ entry.lookup "filename" = some ds[i].filename
        ∧ entry.lookup "id" = some ds[i].id
        ∧ entry.lookup "romtype" = some ds[i].romtype
        ∧ entry.lookup "size" = some (JSValue.num (Number ds[i].size))
        ∧ entry.lookup "url" = some ds[i].url
        ∧ entry.lookup "version" = some ds[i].version := by
  refine ⟨ds.map shapeDevice, checkUpdateHandler_docs err ds [], List.length_map _ _,
    shapeDevice ds[i], ?_, rfl, rfl, rfl, rfl, rfl, rfl, rfl, rfl, rfl⟩
  rw [List.getElem?_map, List.getElem?_eq_getElem hi]
  rfl

/-- C3 at a concrete array: for a polaris document followed by the beryllium
weekly document, the entry at index 1 has the seven keys and carries the
beryllium values, datetime 1551462180 and size 100 as numbers. -/
theorem checkUpdate_response_is_image_witness :
    ∃ L : List JSObject,
      checkUpdateHandler [FindEvent.callback none (Devices.docs [polarisDevice, berylliumDevice])]
        = some (Response.mk 200 (Body.updates L))
      ∧ L.length = 2
      ∧ ∃ entry : JSObject, L[1]? = some entry
        ∧ entry.map Prod.fst = ["datetime", "filename", "id", "romtype", "size", "url", "version"]
        ∧ entry.lookup "datetime" = some (JSValue.num (JSNumber.int 1551462180))
        ∧ entry.lookup "filename" = some (JSValue.str "x.zip")
        ∧ entry.lookup "size" = some (JSValue.num (JSNumber.int 100)) := by
  obtain ⟨L, h1, h2, entry, h3, h4, _, h5, h6, _, _, h7, _⟩ :=
    checkUpdate_response_is_image none [polarisDevice, berylliumDevice] 1 (by decide)
  exact ⟨L, h1, h2, entry, h3, h4, h5, h6, h7⟩

/-- C8, what the code does where the claim expects 404: for every store and
query, when `find` reports an error to its callback alone, with `devices`
undefined as the error-first convention has it, the callback does not read
`err`, the test for null fails and reading `devices.length` throws inside
it: the route sends nothing, so no 404.  The sibling path, the `catch` block
of a rejected `find`, does answer 404 DeviceNotFound. -/
theorem checkUpdate_callback_error_unanswered (basic : Basic) (store : Store)
    (device type err : String) :
    serve basic store (Request.checkUpdate device type
        (some [FindEvent.callback (some err) Devices.undefined])) = (none, store)
    ∧ (serve basic store (Request.checkUpdate device type
        (some [FindEvent.callback (some err) Devices.undefined]))).1
      ≠ some (Response.mk 404 (Body.error "DeviceNotFound"))
    ∧ ∀ e : String, serve basic store (Request.checkUpdate device type (some [FindEvent.rejects e]))
      = (some (Response.mk 404 (Body.error "DeviceNotFound")), store) := by
  have h : serve basic store (Request.checkUpdate device type
      (some [FindEvent.callback (some err) Devices.undefined])) = (none, store) := rfl
  refine ⟨h, ?_, fun _ => rfl⟩
  rw [h]
  simp

/-- C8 at a concrete failure: a network error reported to the callback of the
query for beryllium weekly is left unanswered, where the same error as a
rejection is answered 404. -/
theorem checkUpdate_callback_error_unanswered_witness :
    (serve sampleBasic [berylliumDevice] (Request.checkUpdate "beryllium" "weekly"
        (some [FindEvent.callback (some "MongoNetworkError") Devices.undefined]))).1 = none
    ∧ (serve sampleBasic [berylliumDevice] (Request.checkUpdate "beryllium" "weekly"
        (some [FindEvent.rejects "MongoNetworkError"]))).1
      = some (Response.mk 404 (Body.error "DeviceNotFound")) :=
  ⟨congrArg Prod.fst (checkUpdate_callback_error_unanswered sampleBasic [berylliumDevice]
      "beryllium" "weekly" "MongoNetworkError").1,
   congrArg Prod.fst ((checkUpdate_callback_error_unanswered sampleBasic [berylliumDevice]
      "beryllium" "weekly" "MongoNetworkError").2.2 "MongoNetworkError")⟩

theorem param_of_mem_runChain (param : String) (value : Option String) (vs : List ValidatorCfg)
    (e : ValidationError) (he : e ∈ runChain param value vs) : e.param = param := by
  simp only [runChain, List.mem_filterMap] at he
  obtain ⟨cfg, _, h⟩ := he
  split at h
  · simp at h
  · simp at h
    rw [← h]

theorem filter_runChain (param q : String) (value : Option String) (vs : List ValidatorCfg) :
    (runChain param value vs).filter (fun e => decide (e.param = q))
      = if param = q then runChain param value vs else [] := by
  split
  · rename_i h
    rw [List.filter_eq_self]
    intro e he
    simp [param_of_mem_runChain param value vs e he, h]
  · rename_i h
    rw [List.filter_eq_nil_iff]
    intro e he
    simp [param_of_mem_runChain param value vs e he, h]

theorem validationResult_field_only (body body' : FormBody) (f : Field)
    (h : body.field f = body'.field f) :
    (validationResult body).filter (fun e => decide (e.param = f.param))
      = (validationResult body').filter (fun e => decide (e.param = f.param)) := by
  cases f <;> simp only [FormBody.field] at h <;>
    simp [validationResult, List.filter_append, filter_runChain, Field.param, h]

theorem mem_units_of_mem (cs : List Char) (c : Char) (hc : c ∈ cs) (hsmall : c.toNat < 65536) :
    c.toNat ∈ unitsOfChars cs := by
  induction cs with
  | nil => simp at hc
  | cons d ds ih =>
    rcases List.mem_cons.mp hc with rfl | hmem
    · rw [unitsOfChars_cons_small c ds hsmall]
      exact List.mem_cons_self _ _
    · simp only [unitsOfChars]
      split
      · exact List.mem_cons_of_mem _ (ih hmem)
      · exact List.mem_cons_of_mem _ (List.mem_cons_of_mem _ (ih hmem))

theorem isURL_blank_or_angle (url : String) (options : UrlOptionsArg)
    (h : ∃ c ∈ url.toList, c = ' ' ∨ c = '<' ∨ c = '>') : isURL url options = false := by
  obtain ⟨c, hc, hwhich⟩ := h
  have hsmall : c.toNat < 65536 := by
    rcases hwhich with rfl | rfl | rfl <;> decide
  have hmem := mem_units_of_mem url.toList c hc hsmall
  have hbad : (isSpaceUnit c.toNat || decide (c.toNat = 60) || decide (c.toNat = 62)) = true := by
    rcases hwhich with rfl | rfl | rfl <;> decide
  unfold isURL
  simp only
  rw [if_pos]
  right
  right
  rw [List.any_eq_true]
  exact ⟨c.toNat, hmem, hbad⟩

/-! ## The submit route -/

/-- C5, where the claim fails: the url of this payload has no explicit scheme,
so it violates the url rule as the spec writes it, and yet the payload is
accepted: the error list is empty and names no url. -/
theorem validation_accepts_written_rule_violation :
    hasExplicitScheme "mirror.potatoproject.co/beryllium/x.zip" = false
    ∧ violatesWrittenUrlRule mirrorBody.url
    ∧ validationResult mirrorBody = []
    ∧ ¬ ∃ e ∈ validationResult mirrorBody, e.param = "url" := by
  refine ⟨by decide, Or.inr (Or.inl (by decide)), by decide, by decide⟩

/-- C5 as amended: the validation of a submission checks the eight fields
independently and collects every violation, where the url rule asks for no
scheme.  A field violates its rule (missing or empty; for datetime and size,
also not a decimal numeral; for url, also refused by `isURL` under the options
of the route) exactly when the error list holds an error naming that field, so
every violated field is named however many are violated at once; every error
names a field that violates its rule; the payload is accepted, the error list
being empty, exactly when no field violates its rule; the errors on a field
depend on the value of that field alone; a url with a blank or an angle
bracket in it is among the refused; and when the list is not empty the
handler renders the form again with exactly this list and the submitted data,
starting no save. -/
theorem validation_collects_every_violation (body : FormBody) :
    (∀ f : Field, violatesRule body f ↔ ∃ e ∈ validationResult body, e.param = f.param)
    ∧ (∀ e ∈ validationResult body, ∃ f : Field, e.param = f.param ∧ violatesRule body f)
    ∧ (validationResult body = [] ↔ ∀ f : Field, ¬ violatesRule body f)
    ∧ (∀ (other : FormBody) (f : Field), body.field f = other.field f →
        (validationResult body).filter (fun e => decide (e.param = f.param))
          = (validationResult other).filter (fun e => decide (e.param = f.param)))
    ∧ ((∃ c ∈ (toString body.url).toList, c = ' ' ∨ c = '<' ∨ c = '>') →
        ∃ e ∈ validationResult body, e.param = "url")
    ∧ (validationResult body ≠ [] → ∀ (outcome : SaveOutcome) (store : Store),
        pushUpdateSend body
          = (Response.mk 200 (Body.form "POSP Updates" (some (validationResult body)) (some body)),
             none)
        ∧ pushUpdateHandler body outcome store
          = (Response.mk 200 (Body.form "POSP Updates" (some (validationResult body)) (some body)),
             store)) := by
  refine ⟨fun f => violatesRule_iff_namesField body f, ?_, validationResult_eq_nil_iff body,
    fun other f h => validationResult_field_only body other f h, ?_, ?_⟩
  · intro e he
    obtain ⟨f, hf⟩ := param_of_mem_validationResult body e he
    exact ⟨f, hf, (violatesRule_iff_namesField body f).mpr ⟨e, he, hf⟩⟩
  · intro h
    exact (violatesRule_iff_namesField body Field.url).mp
      (Or.inr (isURL_blank_or_angle _ _ h))
  · intro hne outcome store
    have hsend : pushUpdateSend body
        = (Response.mk 200 (Body.form "POSP Updates" (some (validationResult body)) (some body)),
           none) := by
      simp [pushUpdateSend, hne]
    exact ⟨hsend, by simp [pushUpdateHandler, hsend, settleSave]⟩

/-- C5 as amended, at concrete submissions.  With every field missing the error
list names all eight fields.  With a datetime that has a letter in it, a size
that ends in its decimal point and a url whose host has no top-level domain,
the other fields being good, the list names exactly datetime, size and url, a
url with a blank in its host is refused as well, and the
datetime and the size are not decimal numerals; the scenario payload, and the
numerals with a sign or a point, are accepted. -/
theorem validation_collects_every_violation_witness :
    ((validationResult (FormBody.mk none none none none none none none none)).map
        (fun e => e.param)
      = ["devicename", "datetime", "datetime", "filename", "id", "romtype", "size", "size", "url",
         "version"])
    ∧ (∀ f : Field, ∃ e ∈ validationResult (FormBody.mk none none none none none none none none),
        e.param = f.param)
    ∧ (validationResult badBody).map (fun e => e.param) = ["datetime", "size", "url"]
    ∧ (∃ e ∈ validationResult { berylliumBody with url := some "https://exa mple.com/x.zip" },
        e.param = "url")
    ∧ ¬ IsDecimalNumeral "12a"
    ∧ ¬ IsDecimalNumeral "1."
    ∧ IsDecimalNumeral "-15.25"
    ∧ validationResult berylliumBody = []
    ∧ validationResult { berylliumBody with datetime := some "+.5", size := some "-15.25" } = [] := by
  have hbad := (validation_collects_every_violation badBody).1
  refine ⟨by decide, fun f =>
    ((validation_collects_every_violation (FormBody.mk none none none none none none none none)).1 f).mp
      (by cases f <;> simp [violatesRule, missingOrEmpty]), by decide,
    (validation_collects_every_violation
      { berylliumBody with url := some "https://exa mple.com/x.zip" }).2.2.2.2.1
      ⟨' ', by decide, Or.inl rfl⟩, ?_, ?_, ?_, by decide, by decide⟩
  · have h := (hbad Field.datetime).mpr (by decide)
    rcases h with h | h
    · rcases h with h | h <;> exact absurd h (by decide)
    · exact h
  · have h := (hbad Field.size).mpr (by decide)
    rcases h with h | h
    · rcases h with h | h <;> exact absurd h (by decide)
    · exact h
  · have h := (validation_collects_every_violation
      { berylliumBody with datetime := some "-15.25" }).2.2.1.mp (by decide) Field.datetime
    by_contra hn
    exact h (Or.inr hn)
/-- C6, where the claim fails: the url `example.com/x.zip` carries no scheme,
and the submission that differs from the scenario payload only in that url
passes validation, with no error on the url field. -/
theorem url_without_scheme_accepted :
    protocolOf (cutFragmentAndQuery (codeUnits "example.com/x.zip")) = none
    ∧ isURL "example.com/x.zip" pushUpdateUrlOptions = true
    ∧ validationResult schemelessBody = []
    ∧ ¬ ∃ e ∈ validationResult schemelessBody, e.param = "url" := by
  decide

/-- C6 as amended: the url field gets an error exactly when `isURL`, with the
one option `require_valid_protocol` over the defaults, refuses the value.  A
missing or empty url is refused; a url that carries a scheme other than http,
https or ftp is refused; the merged options do not require a scheme. -/
theorem url_rule (body : FormBody) :
    ((∃ e ∈ validationResult body, e.param = "url")
        ↔ isURL (toString body.url) pushUpdateUrlOptions = false)
    ∧ (missingOrEmpty body.url → ∃ e ∈ validationResult body, e.param = "url")
    ∧ (∀ protocol : List Nat,
        protocolOf (cutFragmentAndQuery (codeUnits (toString body.url))) = some protocol →
        protocol ∉ [codeUnits "http", codeUnits "https", codeUnits "ftp"] →
        ∃ e ∈ validationResult body, e.param = "url")
    ∧ (merge pushUpdateUrlOptions default_url_options).require_protocol = false
    ∧ (merge pushUpdateUrlOptions default_url_options).require_valid_protocol = true := by
  have key : (∃ e ∈ validationResult body, e.param = "url")
      ↔ isURL (toString body.url) pushUpdateUrlOptions = false := by
    have h := namesField_iff body "url"
    unfold namesField at h
    rw [h]
    simp
  refine ⟨key, fun h => key.mpr (missingOrEmpty_isURL body.url h), ?_, rfl, rfl⟩
  intro protocol hp hnot
  rw [key]
  unfold isURL
  simp only
  split
  · rfl
  · split
    · rfl
    · have hs : stripProtocol (merge pushUpdateUrlOptions default_url_options)
          (codeUnits (toString body.url)) = none := by
        unfold stripProtocol
        simp only [hp]
        have hc : ((merge pushUpdateUrlOptions default_url_options).protocols.map codeUnits).contains
            protocol = false := by
          rw [List.contains_eq_any_beq]
          simpa [merge, pushUpdateUrlOptions, default_url_options] using hnot
        rw [hc]
        rfl
      rw [hs]

/-- C6 as amended, at concrete submissions: the scheme `htp` is refused with
an error on the url field, and so is a missing url. -/
theorem url_rule_witness :
    (∃ e ∈ validationResult (FormBody.mk (some "beryllium") (some "1551462180") (some "x.zip")
        (some "abc1") (some "weekly") (some "100") (some "htp://example.com/x.zip") (some "1.0")),
      e.param = "url")
    ∧ (∃ e ∈ validationResult (FormBody.mk (some "beryllium") (some "1551462180") (some "x.zip")
        (some "abc1") (some "weekly") (some "100") none (some "1.0")), e.param = "url") :=
  ⟨(url_rule (FormBody.mk (some "beryllium") (some "1551462180") (some "x.zip")
        (some "abc1") (some "weekly") (some "100") (some "htp://example.com/x.zip")
        (some "1.0"))).2.2.1 (codeUnits "htp") (by decide) (by decide),
   (url_rule (FormBody.mk (some "beryllium") (some "1551462180") (some "x.zip")
        (some "abc1") (some "weekly") (some "100") none (some "1.0"))).2.1 (Or.inl rfl)⟩

/-- C7: for every payload that passes validation on an authenticated
submission, the route answers 200 with the body Successfully saved however the
save settles: the answer is the same when the save resolves, and the document
is stored, and when it rejects, and nothing is stored. -/
theorem pushUpdate_valid_sends_saved (basic : Basic) (credentials : Option Credentials)
    (body : FormBody) (store : Store) (outcome : SaveOutcome)
    (hauth : basic.isAuthenticated credentials = true)
    (hvalid : validationResult body = []) :
    (pushUpdate basic credentials body outcome store).1
        = Response.mk 200 (Body.message "Successfully saved")
    ∧ ∀ error : String,
        (pushUpdate basic credentials body SaveOutcome.resolved store).1
          = (pushUpdate basic credentials body (SaveOutcome.rejected error) store).1
        ∧ (pushUpdate basic credentials body SaveOutcome.resolved store).2
          = store ++ [newDevice body]
        ∧ (pushUpdate basic credentials body (SaveOutcome.rejected error) store).2 = store := by
  have hrun : ∀ o : SaveOutcome, pushUpdate basic credentials body o store
      = (Response.mk 200 (Body.message "Successfully saved"), store.save (newDevice body) o) := by
    intro o
    simp [pushUpdate, pushUpdateHandler, pushUpdateSend, settleSave, hauth, hvalid]
  refine ⟨by rw [hrun outcome], fun error => ⟨by rw [hrun, hrun], ?_, ?_⟩⟩
  · rw [hrun]
    rfl
  · rw [hrun]
    rfl

/-- C7 at the scenario payload: saved or not, the answer is 200 Successfully
saved; when the save rejects the store stays empty all the same. -/
theorem pushUpdate_valid_sends_saved_witness :
    (pushUpdate sampleBasic (some adminCredentials) berylliumBody
        (SaveOutcome.rejected "MongoNetworkError") []).1
      = Response.mk 200 (Body.message "Successfully saved")
    ∧ (pushUpdate sampleBasic (some adminCredentials) berylliumBody
        (SaveOutcome.rejected "MongoNetworkError") []).2 = [] :=
  ⟨(pushUpdate_valid_sends_saved sampleBasic (some adminCredentials) berylliumBody []
      (SaveOutcome.rejected "MongoNetworkError") (by decide) (by decide)).1, by decide⟩

/-- C9: a submission whose credentials are missing, or verify against no line
of the credential list, is answered by the guard with 401; the chains and the
handler do not run (the answer is not the handler's), and the store after
the request is the store before it, whatever the body holds. -/
theorem pushUpdate_unauthenticated_rejected (basic : Basic) (credentials : Option Credentials)
    (body : FormBody) (outcome : SaveOutcome) (store : Store)
    (hcred : credentials = none ∨ ∃ c, credentials = some c ∧
      ∀ u ∈ basic.users, ¬ (u.username = c.username ∧ basic.validate u.hash c.password = true)) :
    pushUpdate basic credentials body outcome store = (unauthorized, store)
    ∧ serve basic store (Request.pushUpdate credentials body outcome) = (some unauthorized, store)
    ∧ unauthorized.status = 401
    ∧ (pushUpdate basic credentials body outcome store).1 ≠ (pushUpdateHandler body outcome store).1 := by
  have hauth : basic.isAuthenticated credentials = false := by
    rcases hcred with rfl | ⟨c, rfl, hc⟩
    · rfl
    · simp only [Basic.isAuthenticated]
      rw [List.any_eq_false]
      intro u hu
      have := hc u hu
      simpa using this
  have h1 : pushUpdate basic credentials body outcome store = (unauthorized, store) := by
    simp [pushUpdate, hauth]
  refine ⟨h1, ?_, rfl, ?_⟩
  · simp [serve, h1]
  · rw [h1]
    unfold pushUpdateHandler pushUpdateSend unauthorized
    split <;> simp

/-- C9 at concrete requests: the scenario payload sent without credentials,
and sent with a wrong password, both leave a store of one document as it
was. -/
theorem pushUpdate_unauthenticated_rejected_witness :
    pushUpdate sampleBasic none berylliumBody SaveOutcome.resolved [berylliumDevice]
      = (unauthorized, [berylliumDevice])
    ∧ pushUpdate sampleBasic (some (Credentials.mk "admin" "guess")) berylliumBody
        SaveOutcome.resolved [berylliumDevice] = (unauthorized, [berylliumDevice]) :=
  ⟨(pushUpdate_unauthenticated_rejected sampleBasic none berylliumBody SaveOutcome.resolved
      [berylliumDevice] (Or.inl rfl)).1,
   (pushUpdate_unauthenticated_rejected sampleBasic (some (Credentials.mk "admin" "guess"))
      berylliumBody SaveOutcome.resolved [berylliumDevice]
      (Or.inr ⟨Credentials.mk "admin" "guess", rfl, by decide⟩)).1⟩

/-- C10: serving any request to any of the three routes keeps every stored
document, in place and unchanged: the store afterwards is the store before
with at most one document appended.  The store changes only on an
authenticated submission that passes validation, and then by exactly the one
document built from the submitted body; such a submission whose save resolves
does append it.  A query, a request for the form and a submission that fails
validation leave the store as it was. -/
theorem serve_store_lifecycle (basic : Basic) (store : Store) (request : Request) :
    (∃ added : List Device, (serve basic store request).2 = store ++ added ∧ added.length ≤ 1)
    ∧ ((serve basic store request).2 ≠ store →
        ∃ credentials body outcome, request = Request.pushUpdate credentials body outcome
          ∧ basic.isAuthenticated credentials = true ∧ validationResult body = []
          ∧ (serve basic store request).2 = store ++ [newDevice body])
    ∧ (∀ credentials body, basic.isAuthenticated credentials = true → validationResult body = [] →
        (serve basic store (Request.pushUpdate credentials body SaveOutcome.resolved)).2
          = store ++ [newDevice body])
    ∧ (∀ credentials, (serve basic store (Request.index credentials)).2 = store)
    ∧ (∀ device type fault, (serve basic store (Request.checkUpdate device type fault)).2 = store)
    ∧ (∀ credentials body outcome, validationResult body ≠ [] →
        (serve basic store (Request.pushUpdate credentials body outcome)).2 = store) := by
  refine ⟨?_, ?_, ?_, fun _ => rfl, fun _ _ _ => rfl, ?_⟩
  · cases request with
    | index credentials => exact ⟨[], by simp [serve], by simp⟩
    | checkUpdate device type fault => exact ⟨[], by simp [serve], by simp⟩
    | pushUpdate credentials body outcome =>
      by_cases hauth : basic.isAuthenticated credentials = true
      · by_cases hvalid : validationResult body = []
        · cases outcome with
          | resolved =>
            exact ⟨[newDevice body], by simp [serve, pushUpdate, pushUpdateHandler, pushUpdateSend, settleSave, hauth, hvalid, Store.save], by simp⟩
          | rejected error =>
            exact ⟨[], by simp [serve, pushUpdate, pushUpdateHandler, pushUpdateSend, settleSave, hauth, hvalid, Store.save], by simp⟩
        · exact ⟨[], by simp [serve, pushUpdate, pushUpdateHandler, pushUpdateSend, settleSave, hauth, hvalid], by simp⟩
      · exact ⟨[], by simp [serve, pushUpdate, hauth], by simp⟩
  · intro hne
    cases request with
    | index credentials => exact absurd rfl hne
    | checkUpdate device type fault => exact absurd rfl hne
    | pushUpdate credentials body outcome =>
      by_cases hauth : basic.isAuthenticated credentials = true
      · by_cases hvalid : validationResult body = []
        · cases outcome with
          | resolved =>
            exact ⟨credentials, body, SaveOutcome.resolved, rfl, hauth, hvalid,
              by simp [serve, pushUpdate, pushUpdateHandler, pushUpdateSend, settleSave, hauth, hvalid, Store.save]⟩
          | rejected error =>
            exact absurd (by simp [serve, pushUpdate, pushUpdateHandler, pushUpdateSend, settleSave, hauth, hvalid, Store.save]) hne
        · exact absurd (by simp [serve, pushUpdate, pushUpdateHandler, pushUpdateSend, settleSave, hauth, hvalid]) hne
      · exact absurd (by simp [serve, pushUpdate, hauth]) hne
  · intro credentials body hauth hvalid
    simp [serve, pushUpdate, pushUpdateHandler, pushUpdateSend, settleSave, hauth, hvalid, Store.save]
  · intro credentials body outcome hinvalid
    by_cases hauth : basic.isAuthenticated credentials = true
    · simp [serve, pushUpdate, pushUpdateHandler, pushUpdateSend, settleSave, hauth, hinvalid]
    · simp [serve, pushUpdate, hauth]

/-! ## Submit, then query -/

/-- C4, where the claim fails: the scenario payload passes validation and,
submitted with valid credentials, is answered 200 Successfully saved while its
save is only in flight; a query for beryllium weekly served then, on the
store as it still is, is answered 200 with an empty response array; and when
the save rejects the store stays as it was, so the query that follows finds
no entry either. -/
theorem pushUpdate_save_rejected_not_found :
    validationResult berylliumBody = []
    ∧ pushUpdateSend berylliumBody
      = (Response.mk 200 (Body.message "Successfully saved"), some berylliumDevice)
    ∧ checkUpdate [] "beryllium" "weekly" = some (Response.mk 200 (Body.updates []))
    ∧ (pushUpdate sampleBasic (some adminCredentials) berylliumBody
        (SaveOutcome.rejected "MongoNetworkError") []).1
      = Response.mk 200 (Body.message "Successfully saved")
    ∧ checkUpdate (pushUpdate sampleBasic (some adminCredentials) berylliumBody
        (SaveOutcome.rejected "MongoNetworkError") []).2 "beryllium" "weekly"
      = some (Response.mk 200 (Body.updates [])) := by
  decide

/-- C4 as amended: for every store and every payload that passes validation,
an authenticated submission is answered 200 Successfully saved whatever
becomes of the save, which is started and not awaited: when the answer is sent
the document is in flight and not yet stored.  Once that save has resolved,
every later query on the working store for the device and type the payload
names, whatever other documents have been stored in between, is answered 200
with a response array that holds an entry whose filename, id, romtype, url
and version are the submitted strings and whose datetime and size are
`Number` of the submitted strings. -/
theorem pushUpdate_then_checkUpdate (basic : Basic) (credentials : Option Credentials)
    (body : FormBody) (store : Store) (outcome : SaveOutcome) (later : List Device)
    (hauth : basic.isAuthenticated credentials = true)
    (hvalid : validationResult body = []) :
    (pushUpdate basic credentials body outcome store).1
        = Response.mk 200 (Body.message "Successfully saved")
    ∧ pushUpdateSend body = (Response.mk 200 (Body.message "Successfully saved"), some (newDevice body))
    ∧ (pushUpdate basic credentials body SaveOutcome.resolved store).2
        = settleSave store SaveOutcome.resolved (pushUpdateSend body).2
    ∧ ∃ devicename datetime filename id romtype size url version : String,
        body = FormBody.mk (some devicename) (some datetime) (some filename) (some id)
          (some romtype) (some size) (some url) (some version)
        ∧ ∃ L : List JSObject,
            checkUpdate ((pushUpdate basic credentials body SaveOutcome.resolved store).2 ++ later)
                devicename romtype = some (Response.mk 200 (Body.updates L))
            ∧ [("datetime", JSValue.num (Number (JSValue.str datetime))),
               ("filename", JSValue.str filename),
               ("id", JSValue.str id),
               ("romtype", JSValue.str romtype),
               ("size", JSValue.num (Number (JSValue.str size))),
               ("url", JSValue.str url),
               ("version", JSValue.str version)] ∈ L := by
  obtain ⟨devicename, datetime, filename, id, romtype, size, url, version, hbody⟩ :=
    fields_of_valid body hvalid
  have hsend : pushUpdateSend body
      = (Response.mk 200 (Body.message "Successfully saved"), some (newDevice body)) := by
    simp [pushUpdateSend, hvalid]
  have hpush : ∀ o : SaveOutcome, pushUpdate basic credentials body o store
      = (Response.mk 200 (Body.message "Successfully saved"), store.save (newDevice body) o) := by
    intro o
    simp [pushUpdate, pushUpdateHandler, hsend, settleSave, hauth]
  refine ⟨by rw [hpush outcome], hsend, by rw [hpush, hsend]; rfl, devicename, datetime, filename,
    id, romtype, size, url, version, hbody, _, by rw [hpush, checkUpdate_eq], ?_⟩
  rw [List.mem_map]
  refine ⟨newDevice body, ?_, ?_⟩
  · rw [List.mem_filter]
    refine ⟨by simp [Store.save], ?_⟩
    subst hbody
    simp [matchesQuery, newDevice, fieldValue]
  · subst hbody
    rfl

/-- C4 as amended, at the scenario of the spec: the beryllium weekly payload
with datetime 1551462180 and size 100 as strings, submitted to an empty store,
is answered 200 Successfully saved; once its save has resolved the query comes
back with one entry, datetime 1551462180 and size 100 as numbers, and the
entry is still there after a polaris document was stored. -/
theorem pushUpdate_then_checkUpdate_witness :
    (pushUpdate sampleBasic (some adminCredentials) berylliumBody SaveOutcome.resolved []).1
        = Response.mk 200 (Body.message "Successfully saved")
    ∧ checkUpdate (pushUpdate sampleBasic (some adminCredentials) berylliumBody
          SaveOutcome.resolved []).2 "beryllium" "weekly"
      = some (Response.mk 200 (Body.updates
          [[("datetime", JSValue.num (JSNumber.int 1551462180)),
            ("filename", JSValue.str "x.zip"),
            ("id", JSValue.str "abc1"),
            ("romtype", JSValue.str "weekly"),
            ("size", JSValue.num (JSNumber.int 100)),
            ("url", JSValue.str "https://example.com/x.zip"),
            ("version", JSValue.str "1.0")]]))
    ∧ checkUpdate ((pushUpdate sampleBasic (some adminCredentials) berylliumBody
          SaveOutcome.resolved []).2 ++ [polarisDevice]) "beryllium" "weekly"
      = some (Response.mk 200 (Body.updates
          [[("datetime", JSValue.num (JSNumber.int 1551462180)),
            ("filename", JSValue.str "x.zip"),
            ("id", JSValue.str "abc1"),
            ("romtype", JSValue.str "weekly"),
            ("size", JSValue.num (JSNumber.int 100)),
            ("url", JSValue.str "https://example.com/x.zip"),
            ("version", JSValue.str "1.0")]])) :=
  ⟨(pushUpdate_then_checkUpdate sampleBasic (some adminCredentials) berylliumBody []
      SaveOutcome.resolved [] (by decide) (by decide)).1, by decide, by decide⟩

end PospOta
